import Mathlib

/-!
# Verification of bbp-workflow core components

Shallow embedding of the command builder (`bbp_workflow/generation/command.py`),
the SLURM utilities (`bbp_workflow/slurm.py`), the activity state machine
(`bbp_workflow/sbo/task.py`) and the job monitor merge logic
(`bbp_workflow/simulation/task.py`), together with proofs about them.
Strings are modelled as `List Char` where character-level scanning matters;
times are `Nat`; Python `None` becomes `Option`.
-/

/-! ## Command builder: secret masking (`generation/command.py`) -/

/-- Whitespace as matched by the regex class `\s` (ASCII part): the characters
Python treats as whitespace in `re`. -/
def isPySpace (c : Char) : Bool :=
  c == ' ' || c == '\t' || c == '\n' || c == '\r' || c == Char.ofNat 11 || c == Char.ofNat 12

/-- A character matched by `\S` (non-whitespace). -/
def isToken (c : Char) : Bool := !isPySpace c

/-- `startsWith pat s`: `pat` is a prefix of `s` (character lists). -/
def startsWith (pat s : List Char) : Bool := s.take pat.length == pat

/-- `containsSeq pat s`: `pat` occurs as a contiguous subsequence of `s`. -/
def containsSeq (pat : List Char) : List Char → Bool
  | [] => startsWith pat []
  | c :: t => startsWith pat (c :: t) || containsSeq pat (c :: t).tail

/-- The regex `NAME=(\S+)` matches at the current position: the literal
`NAME=` followed by at least one non-whitespace character. -/
def matchAt (p s : List Char) : Bool :=
  startsWith (p ++ ['=']) s &&
    match (s.drop (p.length + 1)).head? with
    | some c => isToken c
    | none => false

/-- Fuel-indexed core of `re.sub(rf"{name}=(\S+)", f"{name}=${name}", string)`:
scan left to right; at a match consume the literal and the maximal non-space
run (greedy `\S+`) and emit `NAME=$NAME`; otherwise keep the character.  Fuel
bounds the recursion; `maskSub` supplies `s.length`, which always suffices. -/
def maskSubF (p : List Char) : Nat → List Char → List Char
  | _, [] => []
  | 0, s => s
  | fuel + 1, c :: t =>
    if matchAt p (c :: t) then
      let rest := (c :: t).drop (p.length + 1)
      p ++ '=' :: '$' :: (p ++ maskSubF p fuel (rest.dropWhile isToken))
    else c :: maskSubF p fuel t

/-- `re.sub(rf"{name}=(\S+)", f"{name}=${name}", s)` on character lists. -/
def maskSub (p s : List Char) : List Char := maskSubF p s.length s

/-- `_mask_token(string, name)` from `generation/command.py`. -/
def maskToken (string name : String) : String := ⟨maskSub name.data string.data⟩

/-- The masked variable set `MASKED_ENV_VARS` from `generation/command.py`. -/
def MASKED_ENV_VARS : List String := ["NEXUS_TOKEN", "KC_SCR"]

/-- `_mask(string)` from `generation/command.py`: fold `_mask_token` over
`MASKED_ENV_VARS` in order. -/
def mask (string : String) : String :=
  MASKED_ENV_VARS.foldl (fun s name => maskToken s name) string

/-! ## Command builder: salloc wrapping (`generation/command.py`) -/

/-- `_escape_single_quotes(value)`: `value.replace("'", "'\\''")` — every
single quote becomes the four characters `'\''`. -/
def replaceQuote : List Char → List Char
  | [] => []
  | c :: t =>
    if c = '\'' then '\'' :: '\\' :: '\'' :: '\'' :: replaceQuote t
    else c :: replaceQuote t

/-- `_escape_single_quotes` from `generation/command.py`. -/
def escapeSingleQuotes (value : String) : String := ⟨replaceQuote value.data⟩

/-- `_build_salloc_command(slurm_config, cmd)` from `generation/command.py`,
with the already-rendered parameter string (`" ".join(map_slurm_params(...))`)
taken as input.  The source applies the quote replacement twice: once inline
(`cmd.replace("'", "'\\''")`) and once more through
`_escape_single_quotes`. -/
def buildSallocCommand (strParams : String) (cmd : String) : String :=
  let cmd := escapeSingleQuotes (escapeSingleQuotes cmd)
  "stdbuf -oL -eL salloc " ++ strParams ++ " srun --mpi=none sh -c '" ++ cmd ++ "'"

/-! ## SLURM allocation parameters (`slurm.py`) -/

/-- The fields of `SlurmCfg` (from `bbp_workflow/task.py`) read or written by
`_process_alloc_params`, with their source defaults. -/
structure SlurmCfg where
  nodes : Int := 0
  ntasks : Int := 0
  ntasksPerNode : Int := 0
  cpusPerTask : Int := 0
  exclusive : Bool := false
  jobName : Option String := none
deriving DecidableEq, Repr

/-- Python truthiness of an `int`. -/
def pyTruthyInt (n : Int) : Bool := n != 0

/-- Python truthiness of an optional `int` (`None` is falsy). -/
def pyTruthyOptInt : Option Int → Bool
  | none => false
  | some n => n != 0

/-- Python truthiness of an optional `str` (`None` and `""` are falsy). -/
def pyTruthyOptStr : Option String → Bool
  | none => false
  | some s => s != ""

/-- `_process_alloc_params(worker_count, slurm_cfg)` from `slurm.py`. -/
def processAllocParams (workerCount : Option Int) (slurmCfg : SlurmCfg) : SlurmCfg :=
  let cfg := slurmCfg
  let cfg :=
    if !pyTruthyInt slurmCfg.nodes || slurmCfg.nodes < 2 then
      { cfg with nodes := 1, ntasks := 1 }
    else
      { cfg with ntasksPerNode := 1 }
  let cfg :=
    if pyTruthyOptInt workerCount && !pyTruthyInt slurmCfg.cpusPerTask
        && !slurmCfg.exclusive then
      { cfg with cpusPerTask := workerCount.getD 0 }
    else cfg
  let cfg :=
    if !pyTruthyOptStr slurmCfg.jobName then { cfg with jobName := some "wrkflw" }
    else cfg
  cfg

/-! ## Remote execution protocol (`slurm.py`: `_run_sbatch`, `_scancel`) -/

/-- Error raised when a submission fails. -/
inductive SubmitError where
  /-- `RuntimeError` raised by `_check_return_code` (message includes the
  masked command when one was passed). -/
  | runtimeError (msg : String)
  /-- `AssertionError` from `assert job_id, "Unable to submit batch job!"`. -/
  | assertFailed (msg : String)
deriving DecidableEq, Repr

/-- The message built by `_check_return_code` when the return code is non-zero,
for the call site in `_run_sbatch` (no separate stdout/stderr captures; the
masked command is appended). -/
def checkReturnCodeMsg (returncode : Int) (cmd : Option String) : String :=
  "Process failed with exit code " ++ toString returncode ++
    (match cmd with
     | some c => "\nCOMMAND:\n" ++ c
     | none => "")

/-- Match one output line against `^Submitted batch job (\d+)$`, returning the
captured job id. -/
def submitLineJobId (line : String) : Option String :=
  let pre := "Submitted batch job "
  if startsWith pre.data line.data then
    let ds := line.data.drop pre.data.length
    if ds ≠ [] && ds.all Char.isDigit then some ⟨ds⟩ else none
  else none

/-- First job id found in the channel's output lines (the read loop breaks at
the first matching line). -/
def findJobId : List String → Option String
  | [] => none
  | l :: ls =>
    match submitLineJobId l with
    | some j => some j
    | none => findJobId ls

/-- The submission phase of `_run_sbatch`: read lines until a submission
acknowledgement or process termination; if no job id was captured, run
`_check_return_code(process, cmd=masked script)` and then
`assert job_id, "Unable to submit batch job!"`. -/
def runSbatchSubmit (lines : List String) (returncode : Int) (maskedCmd : String) :
    Except SubmitError String :=
  match findJobId lines with
  | some j => .ok j
  | none =>
    if returncode != 0 then
      .error (.runtimeError (checkReturnCodeMsg returncode (some maskedCmd)))
    else
      .error (.assertFailed "Unable to submit batch job!")

/-- Outcome of the `try/finally` scope of `_run_sbatch` after a job id was
captured. -/
structure SbatchScopeOut (ε : Type) where
  outcome : Except ε Unit
  scancelIssued : Bool
deriving Repr

/-- The scoped part of `_run_sbatch` after the job id is captured: the `try`
body (script persist, `yield job_id, process`, `process.wait()`,
`_check_return_code`) is summarised by its outcome; the `finally` clause
issues `_scancel(host, job_id)` exactly when `should_cancel` is set, and any
exception keeps propagating. -/
def runSbatchScope {ε : Type} (shouldCancel : Bool) (body : Except ε Unit) :
    SbatchScopeOut ε :=
  match body with
  | .ok () => { outcome := .ok (), scancelIssued := shouldCancel }
  | .error e => { outcome := .error e, scancelIssued := shouldCancel }

/-! ## Activity state machine (`sbo/task.py`: `MetaTask.run`) -/

/-- The configuration entity (`BbpWorkflowConfig`): identity plus revision. -/
structure KgConfig where
  id : String
  rev : Nat
deriving DecidableEq, Repr

/-- The fields of a `BbpWorkflowActivity` manipulated by `MetaTask.run`.
`generated` is the reference (url) of the previously generated resource. -/
structure Activity where
  usedConfig : KgConfig
  usedRev : Nat
  startedAtTime : Option Nat
  endedAtTime : Option Nat
  status : String
  generated : Option String
deriving DecidableEq, Repr

/-- Result of the lookup/evolve phase of `MetaTask.run` (lines 97–121):
the activity bound after the three-way branch, the `do_pre_publish` flag, and
the publishes performed so far (activity, `sync_index` flag). -/
structure MetaPhase1Out where
  activity : Activity
  doPrePublish : Bool
  published : List (Activity × Bool)
deriving Repr

/-- Lines 98–121 of `MetaTask.run`: fetch the stored activity; if none, create
a fresh `Running` activity and publish it; if it has a non-null `endedAtTime`,
evolve it in place to a fresh `Running` attempt and publish it; otherwise keep
it and clear `do_pre_publish`. -/
def metaPhase1 (stored : Option Activity) (config : KgConfig) (tStart : Nat) :
    MetaPhase1Out :=
  match stored with
  | none =>
    let a : Activity :=
      { usedConfig := config, usedRev := config.rev, startedAtTime := some tStart,
        endedAtTime := none, status := "Running", generated := none }
    { activity := a, doPrePublish := true, published := [(a, false)] }
  | some a =>
    if a.endedAtTime ≠ none then
      let a' : Activity :=
        { a with usedConfig := config, usedRev := config.rev,
                 startedAtTime := some tStart, endedAtTime := none,
                 status := "Running" }
      { activity := a', doPrePublish := true, published := [(a', false)] }
    else
      { activity := a, doPrePublish := false, published := [] }

/-- Full outcome of `MetaTask.run`: the re-raised exception or the final
activity, every `self.publish` call in order (activity, `sync_index`), how
often `pre_publish_resource` ran, and the resource reference handed to the
yielded base task (if the yield was reached). -/
structure MetaRunOut (ε : Type) where
  result : Except ε Activity
  published : List (Activity × Bool)
  prePublishCalls : Nat
  baseTaskArg : Option (Option String)

/-- `MetaTask.run` (lines 95–144).  The delegated steps are passed in as
fallible functions: `prePub` is `self.pre_publish_resource`, `baseTask` is the
yielded base-task execution (receiving the resource reference), `pubRes` is
`self.publish_resource`.  On any exception the activity is evolved to
`Failed`/`endedAtTime=now`, published with `sync_index=True`, and the same
exception is re-raised. -/
def metaTaskRun {ε : Type} (stored : Option Activity) (config : KgConfig)
    (tStart tEnd : Nat)
    (prePub : Activity → Except ε (Activity × Option String))
    (baseTask : Option String → Except ε Unit)
    (pubRes : Activity → Option String → Except ε (Activity × Option String)) :
    MetaRunOut ε :=
  let p := metaPhase1 stored config tStart
  let activity := p.activity
  let prePubCalls := if p.doPrePublish then 1 else 0
  match (if p.doPrePublish then prePub activity
         else .ok (activity, activity.generated)) with
  | .error e =>
    let aF := { activity with endedAtTime := some tEnd, status := "Failed" }
    { result := .error e, published := p.published ++ [(aF, true)],
      prePublishCalls := prePubCalls, baseTaskArg := none }
  | .ok (a1, res) =>
    match baseTask res with
    | .error e =>
      let aF := { a1 with endedAtTime := some tEnd, status := "Failed" }
      { result := .error e, published := p.published ++ [(aF, true)],
        prePublishCalls := prePubCalls, baseTaskArg := some res }
    | .ok () =>
      match pubRes a1 res with
      | .error e =>
        let aF := { a1 with endedAtTime := some tEnd, status := "Failed" }
        { result := .error e, published := p.published ++ [(aF, true)],
          prePublishCalls := prePubCalls, baseTaskArg := some res }
      | .ok (a2, _res2) =>
        let aD := { a2 with endedAtTime := some tEnd, status := "Done" }
        { result := .ok aD, published := p.published ++ [(aD, true)],
          prePublishCalls := prePubCalls, baseTaskArg := some res }

/-! ## Job monitor (`simulation/task.py`: `_map_slurm_state`, `_merge`) -/

/-- The `scontrol` per-task properties used by `_merge`. -/
structure SlurmProps where
  jobState : String
  exitCode : String
  stdOut : String
deriving DecidableEq, Repr

/-- `_map_slurm_state(state, exit_code)`: a `match` with cases for `RUNNING`,
`PENDING` and `COMPLETED` only; any other state falls through and the function
returns `None`. -/
def mapSlurmState (state : String) (exitCode : String) : Option String :=
  if state = "RUNNING" then some "Running"
  else if state = "PENDING" then some "Pending"
  else if state = "COMPLETED" then
    if exitCode = "0:0" then some "Done" else some "Failed"
  else none

/-- `_is_final_state(state)`: membership in `["Done", "Failed"]` (the argument
may be `None`). -/
def isFinalState (state : Option String) : Bool :=
  state == some "Done" || state == some "Failed"

/-- The per-item status record (`sim` entity) fields touched by `_merge`. -/
structure SimEntity where
  status : Option String
  startedAtTime : Option Nat
  endedAtTime : Option Nat
  logUrl : Option String
deriving DecidableEq, Repr

/-- Mutable state of the `_merge` loop: the accumulated `sim_props` map, the
optional tracked `index_to_sim_entity` map, the `update_state` flag (note:
initialised once, before the loop), and the `sim.publish()` calls made. -/
structure MergeState where
  simProps : Nat → Option SlurmProps
  indexToSim : Option (Nat → SimEntity)
  updateState : Bool
  publishes : List (Nat × SimEntity)

/-- One iteration of the `for idx, p in new_sim_props.items()` loop of
`_merge` (`now` is `datetime.utcnow()`, `oodUrl` renders the log link). -/
def mergeOne (now : Nat) (oodUrl : String → String) (st : MergeState)
    (ip : Nat × SlurmProps) : MergeState :=
  let idx := ip.1
  let p := ip.2
  let updateState :=
    match st.simProps idx with
    | some old => if p.jobState = old.jobState then false else st.updateState
    | none => st.updateState
  let (indexToSim, publishes) :=
    match st.indexToSim with
    | some f =>
      if updateState then
        let sim := f idx
        let sim :=
          { sim with
            status := mapSlurmState p.jobState p.exitCode
            logUrl := some (oodUrl p.stdOut) }
        let sim :=
          if sim.status = some "Running" ∧ sim.startedAtTime = none then
            { sim with startedAtTime := some now }
          else sim
        let sim :=
          if isFinalState sim.status then { sim with endedAtTime := some now }
          else sim
        (some (fun j => if j = idx then sim else f j), st.publishes ++ [(idx, sim)])
      else (some f, st.publishes)
    | none => (none, st.publishes)
  { simProps := fun j => if j = idx then some p else st.simProps j,
    indexToSim := indexToSim, updateState := updateState, publishes := publishes }

/-- `_merge(sim_props, new_sim_props, index_to_sim_entity)`: fold the loop
body over the polled records in iteration order, starting with
`update_state = True`. -/
def merge (now : Nat) (oodUrl : String → String)
    (simProps : Nat → Option SlurmProps) (newSimProps : List (Nat × SlurmProps))
    (indexToSim : Option (Nat → SimEntity)) : MergeState :=
  newSimProps.foldl (mergeOne now oodUrl)
    { simProps := simProps, indexToSim := indexToSim, updateState := true,
      publishes := [] }

/-! ## Helper lemmas: masking -/

theorem length_dropWhile_le (q : Char → Bool) (l : List Char) :
    (l.dropWhile q).length ≤ l.length := by
  induction l with
  | nil => simp
  | cons c t ih =>
    rw [List.dropWhile_cons]
    split
    · exact le_trans ih (Nat.le_succ _)
    · simp

theorem maskSubF_congr (p : List Char) :
    ∀ (n : Nat) (s : List Char), s.length ≤ n → ∀ (m : Nat), s.length ≤ m →
      maskSubF p n s = maskSubF p m s := by
  intro n
  induction n with
  | zero =>
    intro s hs m _
    obtain rfl : s = [] := List.length_eq_zero.mp (Nat.le_zero.mp hs)
    cases m <;> rfl
  | succ n ih =>
    intro s hs m hm
    cases s with
    | nil => cases m <;> rfl
    | cons c t =>
      obtain ⟨m', rfl⟩ : ∃ m', m = m' + 1 := by
        cases m with
        | zero => simp at hm
        | succ m' => exact ⟨m', rfl⟩
      show maskSubF p (n + 1) (c :: t) = maskSubF p (m' + 1) (c :: t)
      simp only [maskSubF]
      by_cases h : matchAt p (c :: t)
      · rw [if_pos h, if_pos h]
        have hlen : (((c :: t).drop (p.length + 1)).dropWhile isToken).length ≤ t.length := by
          have h1 := length_dropWhile_le isToken ((c :: t).drop (p.length + 1))
          have h2 : ((c :: t).drop (p.length + 1)).length ≤ t.length := by
            rw [List.length_drop]
            simp only [List.length_cons]
            omega
          omega
        simp only [List.length_cons] at hs hm
        rw [ih _ (by omega) m' (by omega)]
      · simp only [List.length_cons] at hs hm
        rw [if_neg h, if_neg h, ih t (by omega) m' (by omega)]

theorem maskSub_eq_of_le (p s : List Char) (n : Nat) (h : s.length ≤ n) :
    maskSubF p n s = maskSub p s :=
  maskSubF_congr p n s h s.length le_rfl

theorem matchAt_ne_nil {p : List Char} (h : matchAt p [] = true) : False := by
  have h2 := ((Bool.and_eq_true _ _).mp h).1
  unfold startsWith at h2
  have h3 := beq_iff_eq.mp h2
  rw [List.take_nil] at h3
  have := congrArg List.length h3
  simp at this

theorem maskSub_eq_match {p s : List Char} (h : matchAt p s = true) :
    maskSub p s =
      p ++ '=' :: '$' :: (p ++ maskSub p ((s.drop (p.length + 1)).dropWhile isToken)) := by
  cases s with
  | nil => exact absurd h (fun h => matchAt_ne_nil h)
  | cons c t =>
    show maskSubF p (t.length + 1) (c :: t) = _
    simp only [maskSubF, if_pos h]
    have h1 := length_dropWhile_le isToken ((c :: t).drop (p.length + 1))
    have h2 : ((c :: t).drop (p.length + 1)).length ≤ t.length := by
      rw [List.length_drop]; simp only [List.length_cons]; omega
    rw [maskSub_eq_of_le p _ t.length (by omega)]

theorem maskSub_cons_nomatch {p : List Char} {c : Char} {t : List Char}
    (h : matchAt p (c :: t) = false) : maskSub p (c :: t) = c :: maskSub p t := by
  show maskSubF p (t.length + 1) (c :: t) = _
  simp only [maskSubF, if_neg (by rw [h]; simp : ¬matchAt p (c :: t) = true)]
  rfl

theorem maskSub_take (p : List Char) :
    ∀ (n : Nat) (s : List Char), s.length ≤ n → ∀ k, k ≤ p.length + 1 →
      (maskSub p s).take k = s.take k := by
  intro n
  induction n with
  | zero =>
    intro s hs k _
    obtain rfl : s = [] := List.length_eq_zero.mp (Nat.le_zero.mp hs)
    rfl
  | succ n ih =>
    intro s hs k hk
    cases s with
    | nil => rfl
    | cons c t =>
      by_cases h : matchAt p (c :: t)
      · rw [maskSub_eq_match h]
        have hpfx : (c :: t).take (p.length + 1) = p ++ ['='] := by
          have h1 := ((Bool.and_eq_true _ _).mp h).1
          unfold startsWith at h1
          have h2 := beq_iff_eq.mp h1
          simpa using h2
        have hs' : (c :: t) = (p ++ ['=']) ++ (c :: t).drop (p.length + 1) := by
          conv_lhs => rw [← List.take_append_drop (p.length + 1) (c :: t)]
          rw [hpfx]
        have hlen : (p ++ ['=']).length = p.length + 1 := by simp
        rw [List.append_cons p '=' _]
        rw [List.take_append_of_le_length (by omega : k ≤ (p ++ ['=']).length)]
        conv_rhs => rw [hs']
        rw [List.take_append_of_le_length (by omega : k ≤ (p ++ ['=']).length)]
      · rw [maskSub_cons_nomatch (by simpa using h)]
        cases k with
        | zero => rfl
        | succ j =>
          simp only [List.take_succ_cons]
          rw [ih t (by simp at hs; omega) j (by omega)]

theorem maskSub_take_le (p s : List Char) {k : Nat} (hk : k ≤ p.length + 1) :
    (maskSub p s).take k = s.take k :=
  maskSub_take p s.length s le_rfl k hk

theorem matchAt_take {p s : List Char} (h : matchAt p s = true) :
    s.take (p.length + 1) = p ++ ['='] := by
  have h2 := ((Bool.and_eq_true _ _).mp h).1
  unfold startsWith at h2
  have h3 := beq_iff_eq.mp h2
  rwa [(by simp : (p ++ ['=']).length = p.length + 1)] at h3

theorem matchAt_head {p s : List Char} (h : matchAt p s = true) :
    ∃ c, (s.drop (p.length + 1)).head? = some c ∧ isToken c = true := by
  have h2 := ((Bool.and_eq_true _ _).mp h).2
  cases hh : (s.drop (p.length + 1)).head? with
  | none => rw [hh] at h2; exact absurd h2 (by simp)
  | some c => rw [hh] at h2; exact ⟨c, rfl, h2⟩

theorem matchAt_intro {p s : List Char} {c : Char}
    (h1 : s.take (p.length + 1) = p ++ ['='])
    (h2 : (s.drop (p.length + 1)).head? = some c)
    (h3 : isToken c = true) : matchAt p s = true := by
  unfold matchAt startsWith
  have hl : (p ++ ['=']).length = p.length + 1 := by simp
  rw [hl, h1, h2]
  simp [h3]

theorem matchAt_congr {p s u : List Char}
    (h : s.take (p.length + 2) = u.take (p.length + 2)) : matchAt p s = matchAt p u := by
  unfold matchAt startsWith
  have hl : (p ++ ['=']).length = p.length + 1 := by simp
  have h1 : s.take (p.length + 1) = u.take (p.length + 1) := by
    have h2 := congrArg (List.take (p.length + 1)) h
    rwa [List.take_take, List.take_take,
      (by omega : (p.length + 1) ⊓ (p.length + 2) = p.length + 1)] at h2
  have h2 : (s.drop (p.length + 1)).head? = (u.drop (p.length + 1)).head? := by
    rw [List.head?_drop, List.head?_drop]
    have hs := congrArg (fun l => l[p.length + 1]?) h
    simp only at hs
    rwa [List.getElem?_take_of_lt (by omega), List.getElem?_take_of_lt (by omega)] at hs
  rw [hl, h1, h2]

theorem head?_dropWhile_isToken (l : List Char) :
    ∀ c, (l.dropWhile isToken).head? = some c → isPySpace c = true := by
  induction l with
  | nil => intro c h; simp at h
  | cons a t ih =>
    intro c h
    rw [List.dropWhile_cons] at h
    by_cases ha : isToken a = true
    · rw [if_pos ha] at h; exact ih c h
    · rw [if_neg ha] at h
      simp only [List.head?_cons, Option.some.injEq] at h
      subst h
      simpa [isToken] using ha

theorem maskSub_head? (p r : List Char) : (maskSub p r).head? = r.head? := by
  have h := maskSub_take_le p r (by omega : 1 ≤ p.length + 1)
  have h1 : ∀ l : List Char, (l.take 1).head? = l.head? := by
    intro l; cases l <;> rfl
  rw [← h1 (maskSub p r), ← h1 r, h]

theorem matchAt_append {p r : List Char} (hp : ∀ c ∈ p ++ ['='], isToken c = true)
    (hr : ∀ c, r.head? = some c → isPySpace c = true) (x : List Char) :
    matchAt p (x ++ r) = matchAt p x := by
  by_cases hx : p.length + 2 ≤ x.length
  · exact matchAt_congr (List.take_append_of_le_length (by omega))
  · by_cases hx1 : x.length = p.length + 1
    · have hdx : x.drop (p.length + 1) = [] := by
        apply List.eq_nil_of_length_eq_zero
        rw [List.length_drop, hx1]
        omega
      have hda : (x ++ r).drop (p.length + 1) = r := by
        rw [List.drop_append_of_le_length (by omega), hdx, List.nil_append]
      have h2 : matchAt p (x ++ r) = false := by
        unfold matchAt
        rw [hda]
        cases hh : r.head? with
        | none => simp
        | some c =>
          have := hr c hh
          simp [isToken, this]
      have h3 : matchAt p x = false := by
        unfold matchAt
        rw [hdx]
        simp
      rw [h2, h3]
    · -- x.length < p.length + 1
      have hx2 : x.length < p.length + 1 := by omega
      have h3 : matchAt p x = false := by
        unfold matchAt startsWith
        have : x.take (p ++ ['=']).length = x := by
          apply List.take_of_length_le
          simp
          omega
        rw [this]
        have hne : x ≠ p ++ ['='] := by
          intro e
          have := congrArg List.length e
          simp at this
          omega
        rw [beq_eq_false_iff_ne.mpr hne]
        simp
      rw [h3]
      by_cases h4 : matchAt p (x ++ r) = true
      · exfalso
        have h5 := matchAt_take h4
        have h6 := congrArg (fun l => l[x.length]?) h5
        simp only [List.getElem?_take_of_lt (by omega : x.length < p.length + 1)] at h6
        rw [List.getElem?_append_right le_rfl, Nat.sub_self] at h6
        have h7 : x.length < (p ++ ['=']).length := by simp; omega
        rw [List.getElem?_eq_getElem h7] at h6
        have h8 : isPySpace ((p ++ ['='])[x.length]) = true := by
          apply hr
          rw [List.head?_eq_getElem?]
          exact h6
        have h9 : isToken ((p ++ ['='])[x.length]) = true :=
          hp _ (List.getElem_mem _)
        rw [isToken, h8] at h9
        simp at h9
      · revert h4
        cases matchAt p (x ++ r) <;> simp

theorem dropWhile_append_spaceHead {r : List Char}
    (hr : ∀ c, r.head? = some c → isPySpace c = true) :
    ∀ a, (a ++ r).dropWhile isToken = a.dropWhile isToken ++ r := by
  intro a
  induction a with
  | nil =>
    simp only [List.nil_append, List.dropWhile_nil]
    cases r with
    | nil => rfl
    | cons c r' =>
      rw [List.dropWhile_cons, if_neg]
      have := hr c rfl
      simp [isToken, this]
  | cons a t ih =>
    rw [List.cons_append, List.dropWhile_cons, List.dropWhile_cons]
    by_cases h : isToken a = true
    · rw [if_pos h, if_pos h, ih]
    · rw [if_neg h, if_neg h, List.cons_append]

theorem maskSub_append {p r : List Char} (hp : ∀ c ∈ p ++ ['='], isToken c = true)
    (hr : ∀ c, r.head? = some c → isPySpace c = true) :
    ∀ (n : Nat) (x : List Char), x.length ≤ n →
      maskSub p (x ++ r) = maskSub p x ++ maskSub p r := by
  intro n
  induction n with
  | zero =>
    intro x hx
    obtain rfl : x = [] := List.length_eq_zero.mp (Nat.le_zero.mp hx)
    rfl
  | succ n ih =>
    intro x hx
    cases x with
    | nil => rfl
    | cons c t =>
      have hEq := matchAt_append hp hr (c :: t)
      by_cases h : matchAt p (c :: t) = true
      · have hLen : p.length + 1 ≤ (c :: t).length := by
          have h2 := List.take_append_drop (p.length + 1) (c :: t)
          rw [matchAt_take h] at h2
          have h3 := congrArg List.length h2
          simp only [List.length_append, List.length_cons, List.length_nil] at h3
          simp only [List.length_cons]
          omega
        rw [maskSub_eq_match (by rw [hEq]; exact h), maskSub_eq_match h]
        rw [List.drop_append_of_le_length hLen]
        rw [dropWhile_append_spaceHead hr]
        have hb : (((c :: t).drop (p.length + 1)).dropWhile isToken).length ≤ n := by
          have h1 := length_dropWhile_le isToken ((c :: t).drop (p.length + 1))
          have h2 : ((c :: t).drop (p.length + 1)).length ≤ t.length := by
            rw [List.length_drop]; simp only [List.length_cons]; omega
          simp only [List.length_cons] at hx
          omega
        rw [ih _ hb]
        simp [List.append_assoc, List.cons_append]
      · have h' : matchAt p (c :: t) = false := by
          revert h; cases matchAt p (c :: t) <;> simp
        rw [show (c :: t) ++ r = c :: (t ++ r) from rfl]
        rw [maskSub_cons_nomatch
          (by rw [show c :: (t ++ r) = (c :: t) ++ r from rfl, hEq]; exact h')]
        rw [maskSub_cons_nomatch h']
        simp only [List.length_cons] at hx
        rw [ih t (by omega)]
        rfl

theorem maskSub_idem {p : List Char} (hp : ∀ c ∈ p ++ ['='], isToken c = true) :
    ∀ (n : Nat) (s : List Char), s.length ≤ n →
      maskSub p (maskSub p s) = maskSub p s := by
  intro n
  induction n with
  | zero =>
    intro s hs
    obtain rfl : s = [] := List.length_eq_zero.mp (Nat.le_zero.mp hs)
    rfl
  | succ n ih =>
    intro s hs
    cases s with
    | nil => rfl
    | cons c t =>
      by_cases h : matchAt p (c :: t) = true
      · have hrs : ∀ d, (((c :: t).drop (p.length + 1)).dropWhile isToken).head? = some d →
            isPySpace d = true := head?_dropWhile_isToken _
        have hlen : (((c :: t).drop (p.length + 1)).dropWhile isToken).length ≤ n := by
          have h1 := length_dropWhile_le isToken ((c :: t).drop (p.length + 1))
          have h2 : ((c :: t).drop (p.length + 1)).length ≤ t.length := by
            rw [List.length_drop]; simp only [List.length_cons]; omega
          simp only [List.length_cons] at hs
          omega
        rw [maskSub_eq_match h]
        generalize hg : ((c :: t).drop (p.length + 1)).dropWhile isToken = rem at hrs hlen
        have hy_space : ∀ d, (maskSub p rem).head? = some d → isPySpace d = true := by
          intro d hd
          rw [maskSub_head?] at hd
          exact hrs d hd
        have hl1 : (p ++ ['=']).length = p.length + 1 := by simp
        have hmo : matchAt p (p ++ '=' :: '$' :: (p ++ maskSub p rem)) = true := by
          apply matchAt_intro (c := '$')
          · rw [List.append_cons p '=' _, ← hl1]
            exact List.take_left _ _
          · rw [List.append_cons p '=' _, ← hl1, List.drop_left]
            rfl
          · decide
        rw [maskSub_eq_match hmo]
        have hdrop : (p ++ '=' :: '$' :: (p ++ maskSub p rem)).drop (p.length + 1) =
            '$' :: (p ++ maskSub p rem) := by
          rw [List.append_cons p '=' _, ← hl1, List.drop_left]
        rw [hdrop]
        have hdw : ('$' :: (p ++ maskSub p rem)).dropWhile isToken = maskSub p rem := by
          rw [List.dropWhile_cons, if_pos (by decide : isToken '$' = true)]
          rw [List.dropWhile_append]
          have hpnil : p.dropWhile isToken = [] :=
            List.dropWhile_eq_nil_iff.mpr (fun x hx => hp x (List.mem_append_left _ hx))
          rw [hpnil]
          simp only [List.isEmpty_nil, if_true]
          cases hy : maskSub p rem with
          | nil => rfl
          | cons d y' =>
            rw [List.dropWhile_cons, if_neg]
            have := hy_space d (by rw [hy]; rfl)
            simp [isToken, this]
        rw [hdw, ih rem hlen]
      · have h' : matchAt p (c :: t) = false := by
          revert h; cases matchAt p (c :: t) <;> simp
        rw [maskSub_cons_nomatch h']
        have hno : matchAt p (c :: maskSub p t) = false := by
          have hcg : (c :: maskSub p t).take (p.length + 2) = (c :: t).take (p.length + 2) := by
            have e1 : ∀ l : List Char, (c :: l).take (p.length + 2) =
                c :: l.take (p.length + 1) := fun l => rfl
            rw [e1, e1, maskSub_take_le p t le_rfl]
          rw [matchAt_congr hcg]
          exact h'
        rw [maskSub_cons_nomatch hno]
        simp only [List.length_cons] at hs
        rw [ih t (by omega)]

theorem take_eq_of_take_eq {x y : List Char} {k m : Nat} (hk : k ≤ m)
    (h : x.take m = y.take m) : x.take k = y.take k := by
  have h1 := congrArg (List.take k) h
  rwa [List.take_take, List.take_take, (by omega : k ⊓ m = k)] at h1

theorem fixed_match_decomp {p s : List Char} (hp : ∀ c ∈ p ++ ['='], isToken c = true)
    (hfix : maskSub p s = s) (h : matchAt p s = true) :
    ∃ rest, s = p ++ '=' :: '$' :: (p ++ rest) ∧ maskSub p rest = rest ∧
      (∀ d, rest.head? = some d → isPySpace d = true) := by
  have he := maskSub_eq_match h
  rw [hfix] at he
  refine ⟨maskSub p ((s.drop (p.length + 1)).dropWhile isToken), he, ?_, ?_⟩
  · exact maskSub_idem hp _ _ le_rfl
  · intro d hd
    rw [maskSub_head?] at hd
    exact head?_dropWhile_isToken _ d hd

theorem fixedNT_tail :
    ∀ s : List Char, maskSub "NEXUS_TOKEN".data s = s →
      maskSub "NEXUS_TOKEN".data s.tail = s.tail := by
  intro s hfix
  cases s with
  | nil => rfl
  | cons c t =>
    by_cases h : matchAt "NEXUS_TOKEN".data (c :: t) = true
    · obtain ⟨rest, he, hrfix, hrsp⟩ := fixed_match_decomp (by decide) hfix h
      have ht : (c :: t).tail = "EXUS_TOKEN=$NEXUS_TOKEN".data ++ rest := by
        rw [he]; rfl
      rw [ht]
      rw [maskSub_append (p := "NEXUS_TOKEN".data) (by decide) hrsp _ _ le_rfl]
      rw [show maskSub "NEXUS_TOKEN".data "EXUS_TOKEN=$NEXUS_TOKEN".data =
        "EXUS_TOKEN=$NEXUS_TOKEN".data from by decide, hrfix]
    · have h' : matchAt "NEXUS_TOKEN".data (c :: t) = false := by
        revert h; cases matchAt "NEXUS_TOKEN".data (c :: t) <;> simp
      rw [maskSub_cons_nomatch h'] at hfix
      injection hfix with h1 h2

theorem fixedNT_drop {s : List Char} (hfix : maskSub "NEXUS_TOKEN".data s = s) :
    ∀ n, maskSub "NEXUS_TOKEN".data (s.drop n) = s.drop n := by
  intro n
  induction n with
  | zero => exact hfix
  | succ n ih =>
    have h1 := fixedNT_tail _ ih
    rwa [List.tail_drop] at h1

theorem dropWhile_eq_drop (q : Char → Bool) (l : List Char) :
    l.dropWhile q = l.drop (l.takeWhile q).length := by
  induction l with
  | nil => rfl
  | cons c t ih =>
    rw [List.dropWhile_cons, List.takeWhile_cons]
    by_cases h : q c = true
    · rw [if_pos h, if_pos h, List.length_cons, List.drop_succ_cons, ih]
    · rw [if_neg h, if_neg h]
      rfl

theorem maskSubKC_window : ∀ (n : Nat) (t : List Char), t.length ≤ n →
    (maskSub "KC_SCR".data t).take 12 = t.take 12 ∨
    ∃ i, i < 12 ∧ (maskSub "KC_SCR".data t).take i = t.take i ∧
      matchAt "KC_SCR".data (t.drop i) = true ∧
      ∃ z, (maskSub "KC_SCR".data t).drop i = "KC_SCR=$KC_SCR".data ++ z := by
  intro n
  induction n with
  | zero =>
    intro t ht
    obtain rfl : t = [] := List.length_eq_zero.mp (Nat.le_zero.mp ht)
    left; rfl
  | succ n ih =>
    intro t ht
    cases t with
    | nil => left; rfl
    | cons d t' =>
      by_cases h : matchAt "KC_SCR".data (d :: t') = true
      · right
        refine ⟨0, by omega, rfl, h, ?_⟩
        refine ⟨maskSub "KC_SCR".data
          (((d :: t').drop ("KC_SCR".data.length + 1)).dropWhile isToken), ?_⟩
        rw [maskSub_eq_match h]
        rfl
      · have h' : matchAt "KC_SCR".data (d :: t') = false := by
          revert h; cases matchAt "KC_SCR".data (d :: t') <;> simp
        rw [maskSub_cons_nomatch h']
        simp only [List.length_cons] at ht
        rcases ih t' (by omega) with hL | ⟨i, hi, hta, hm, z, hdr⟩
        · left
          have h11 : (maskSub "KC_SCR".data t').take 11 = t'.take 11 :=
            take_eq_of_take_eq (by omega) hL
          show d :: (maskSub "KC_SCR".data t').take 11 = d :: t'.take 11
          rw [h11]
        · by_cases hi11 : i = 11
          · left
            subst hi11
            show d :: (maskSub "KC_SCR".data t').take 11 = d :: t'.take 11
            rw [hta]
          · right
            refine ⟨i + 1, by omega, ?_, hm, z, hdr⟩
            show d :: (maskSub "KC_SCR".data t').take i = d :: t'.take i
            rw [hta]

theorem matchAtNT_cons_maskKC {c : Char} {t : List Char}
    (h : matchAt "NEXUS_TOKEN".data (c :: t) = false) :
    matchAt "NEXUS_TOKEN".data (c :: maskSub "KC_SCR".data t) = false := by
  by_cases h4 : matchAt "NEXUS_TOKEN".data (c :: maskSub "KC_SCR".data t) = true
  case neg => revert h4; cases matchAt "NEXUS_TOKEN".data (c :: maskSub "KC_SCR".data t) <;> simp
  exfalso
  have hT := matchAt_take h4
  have hT' : (c :: maskSub "KC_SCR".data t).take 12 = "NEXUS_TOKEN=".data := hT
  have hch : ∀ j, j < 12 → (c :: maskSub "KC_SCR".data t)[j]? = "NEXUS_TOKEN=".data[j]? := by
    intro j hj
    have h5 := congrArg (fun l => l[j]?) hT'
    simp only at h5
    rwa [List.getElem?_take_of_lt hj] at h5
  rcases maskSubKC_window t.length t le_rfl with hL | ⟨i, hi, hta, hm, z, hdr⟩
  · have hcg : (c :: maskSub "KC_SCR".data t).take ("NEXUS_TOKEN".data.length + 2) =
        (c :: t).take ("NEXUS_TOKEN".data.length + 2) := by
      show c :: (maskSub "KC_SCR".data t).take 12 = c :: t.take 12
      rw [hL]
    rw [matchAt_congr hcg, h] at h4
    exact absurd h4 (by simp)
  · have hkc : ∀ m, (maskSub "KC_SCR".data t)[i + m]? = ("KC_SCR=$KC_SCR".data ++ z)[m]? := by
      intro m
      have h6 := congrArg (fun l => l[m]?) hdr
      simp only at h6
      rwa [List.getElem?_drop] at h6
    rcases (by omega : i < 11 ∨ i = 11) with hlt | heq
    · have e1 : "NEXUS_TOKEN=".data[i + 1]? = some 'K' := by
        rw [← hch (i + 1) (by omega), List.getElem?_cons_succ]
        have h7 := hkc 0
        rw [Nat.add_zero] at h7
        rw [h7, List.getElem?_append_left (by decide : (0 : Nat) < "KC_SCR=$KC_SCR".data.length)]
        decide
      have hi7 : i = 7 := by
        have hd : ∀ i, i < 11 → "NEXUS_TOKEN=".data[i + 1]? = some 'K' → i = 7 := by decide
        exact hd i hlt e1
      subst hi7
      have e2 : "NEXUS_TOKEN=".data[9]? = some 'C' := by
        rw [← hch 9 (by omega), show (9 : Nat) = 8 + 1 from rfl, List.getElem?_cons_succ]
        have h7 := hkc 1
        rw [show (7 : Nat) + 1 = 8 from rfl] at h7
        rw [h7, List.getElem?_append_left (by decide : (1 : Nat) < "KC_SCR=$KC_SCR".data.length)]
        decide
      revert e2; decide
    · subst heq
      have hTt : (c :: t).take 12 = "NEXUS_TOKEN=".data := by
        rw [← hT']
        show c :: t.take 11 = c :: (maskSub "KC_SCR".data t).take 11
        rw [hta]
      have hmk' : (t.drop 11).take 7 = "KC_SCR=".data := matchAt_take hm
      have hhd : ((c :: t).drop 12).head? = some 'K' := by
        show (t.drop 11).head? = some 'K'
        have h8 : ∀ l : List Char, (l.take 7).head? = l.head? := by
          intro l; cases l <;> rfl
        rw [← h8, hmk']
        rfl
      have h9 : matchAt "NEXUS_TOKEN".data (c :: t) = true := by
        apply matchAt_intro (c := 'K')
        · exact hTt
        · exact hhd
        · decide
      rw [h9] at h
      exact absurd h (by simp)

theorem maskKC_preserves_fixedNT : ∀ (n : Nat) (a : List Char), a.length ≤ n →
    maskSub "NEXUS_TOKEN".data a = a →
    maskSub "NEXUS_TOKEN".data (maskSub "KC_SCR".data a) = maskSub "KC_SCR".data a := by
  intro n
  induction n with
  | zero =>
    intro a ha _
    obtain rfl : a = [] := List.length_eq_zero.mp (Nat.le_zero.mp ha)
    rfl
  | succ n ih =>
    intro a ha hfix
    cases a with
    | nil => rfl
    | cons c t =>
      by_cases hNT : matchAt "NEXUS_TOKEN".data (c :: t) = true
      · obtain ⟨rest, he, hrfix, hrsp⟩ := fixed_match_decomp (by decide) hfix hNT
        have he' : c :: t = "NEXUS_TOKEN=$NEXUS_TOKEN".data ++ rest := by rw [he]; rfl
        have hlen : rest.length ≤ n := by
          have h1 := congrArg List.length he'
          simp only [List.length_cons, List.length_append] at h1
          simp only [List.length_cons] at ha
          have h2 : ("NEXUS_TOKEN=$NEXUS_TOKEN".data).length = 24 := by decide
          omega
        rw [he']
        rw [maskSub_append (p := "KC_SCR".data) (by decide) hrsp _ _ le_rfl]
        rw [show maskSub "KC_SCR".data "NEXUS_TOKEN=$NEXUS_TOKEN".data =
          "NEXUS_TOKEN=$NEXUS_TOKEN".data from by decide]
        have hsp2 : ∀ d, (maskSub "KC_SCR".data rest).head? = some d → isPySpace d = true := by
          intro d hd
          rw [maskSub_head?] at hd
          exact hrsp d hd
        rw [maskSub_append (p := "NEXUS_TOKEN".data) (by decide) hsp2 _ _ le_rfl]
        rw [show maskSub "NEXUS_TOKEN".data "NEXUS_TOKEN=$NEXUS_TOKEN".data =
          "NEXUS_TOKEN=$NEXUS_TOKEN".data from by decide]
        rw [ih rest hlen hrfix]
      · have hNT' : matchAt "NEXUS_TOKEN".data (c :: t) = false := by
          revert hNT; cases matchAt "NEXUS_TOKEN".data (c :: t) <;> simp
        have htfix : maskSub "NEXUS_TOKEN".data t = t := by
          rw [maskSub_cons_nomatch hNT'] at hfix
          injection hfix
        by_cases hKC : matchAt "KC_SCR".data (c :: t) = true
        · rw [maskSub_eq_match hKC]
          have hremsp : ∀ d,
              (((c :: t).drop ("KC_SCR".data.length + 1)).dropWhile isToken).head? = some d →
                isPySpace d = true := head?_dropWhile_isToken _
          have hremfix : maskSub "NEXUS_TOKEN".data
              (((c :: t).drop ("KC_SCR".data.length + 1)).dropWhile isToken) =
              ((c :: t).drop ("KC_SCR".data.length + 1)).dropWhile isToken := by
            rw [dropWhile_eq_drop]
            have h1 := fixedNT_drop hfix ("KC_SCR".data.length + 1)
            exact fixedNT_drop h1 _
          have hlen :
              ((((c :: t).drop ("KC_SCR".data.length + 1)).dropWhile isToken)).length ≤ n := by
            have h1 := length_dropWhile_le isToken ((c :: t).drop ("KC_SCR".data.length + 1))
            have h2 : ((c :: t).drop ("KC_SCR".data.length + 1)).length ≤ t.length := by
              rw [List.length_drop]; simp only [List.length_cons]; omega
            simp only [List.length_cons] at ha
            omega
          have hsp3 : ∀ d,
              (maskSub "KC_SCR".data
                (((c :: t).drop ("KC_SCR".data.length + 1)).dropWhile isToken)).head? = some d →
                isPySpace d = true := by
            intro d hd
            rw [maskSub_head?] at hd
            exact hremsp d hd
          have hshape : "KC_SCR".data ++ '=' :: '$' :: ("KC_SCR".data ++
              maskSub "KC_SCR".data
                (((c :: t).drop ("KC_SCR".data.length + 1)).dropWhile isToken)) =
              "KC_SCR=$KC_SCR".data ++
              maskSub "KC_SCR".data
                (((c :: t).drop ("KC_SCR".data.length + 1)).dropWhile isToken) := rfl
          rw [hshape]
          rw [maskSub_append (p := "NEXUS_TOKEN".data) (by decide) hsp3 _ _ le_rfl]
          rw [show maskSub "NEXUS_TOKEN".data "KC_SCR=$KC_SCR".data =
            "KC_SCR=$KC_SCR".data from by decide]
          rw [ih _ hlen hremfix]
        · have hKC' : matchAt "KC_SCR".data (c :: t) = false := by
            revert hKC; cases matchAt "KC_SCR".data (c :: t) <;> simp
          rw [maskSub_cons_nomatch hKC']
          rw [maskSub_cons_nomatch (matchAtNT_cons_maskKC hNT')]
          simp only [List.length_cons] at ha
          rw [ih t (by omega) htfix]

theorem maskSub_of_not_contains {p : List Char} :
    ∀ s, containsSeq (p ++ ['=']) s = false → maskSub p s = s := by
  intro s
  induction s with
  | nil => intro _; rfl
  | cons c t ih =>
    intro h
    have he : containsSeq (p ++ ['=']) (c :: t) =
        (startsWith (p ++ ['=']) (c :: t) || containsSeq (p ++ ['=']) t) := rfl
    rw [he] at h
    have h1 : startsWith (p ++ ['=']) (c :: t) = false := by
      revert h; cases startsWith (p ++ ['=']) (c :: t) <;> simp
    have h2 : containsSeq (p ++ ['=']) t = false := by
      revert h; cases containsSeq (p ++ ['=']) t <;> simp
    have hm : matchAt p (c :: t) = false := by
      unfold matchAt
      rw [h1]
      rfl
    rw [maskSub_cons_nomatch hm, ih h2]

theorem mask_data (s : String) :
    (mask s).data =
      maskSub "KC_SCR".data (maskSub "NEXUS_TOKEN".data s.data) := rfl

/-- C3: masking the literal example string yields the expected masked string,
and masking is idempotent on every string: `_mask(_mask(s)) = _mask(s)`. -/
theorem mask_concrete_and_idempotent :
    mask "A=12324 NEXUS_TOKEN=aasd.asdf-gdf.gd-f B=3434 KC_SCR=ssda.3243-dfgr C=43534" =
      "A=12324 NEXUS_TOKEN=$NEXUS_TOKEN B=3434 KC_SCR=$KC_SCR C=43534" ∧
    ∀ s : String, mask (mask s) = mask s := by
  constructor
  · decide
  · intro s
    apply String.ext
    rw [mask_data, mask_data]
    have hNTfix : maskSub "NEXUS_TOKEN".data (maskSub "NEXUS_TOKEN".data s.data) =
        maskSub "NEXUS_TOKEN".data s.data := maskSub_idem (by decide) _ _ le_rfl
    have h1 := maskKC_preserves_fixedNT (maskSub "NEXUS_TOKEN".data s.data).length _
      le_rfl hNTfix
    rw [h1]
    exact maskSub_idem (by decide) _ _ le_rfl

/-- C4 counterexample: the claim "assignments whose variable name merely
contains a secret name as a substring of a longer token are unchanged" fails:
the regex is unanchored, so `MY_NEXUS_TOKEN=abc` IS rewritten. -/
theorem mask_substring_counterexample :
    mask "MY_NEXUS_TOKEN=abc" = "MY_NEXUS_TOKEN=$NEXUS_TOKEN" ∧
    mask "MY_NEXUS_TOKEN=abc" ≠ "MY_NEXUS_TOKEN=abc" := by decide

/-- C4 amended: masking leaves a string unchanged whenever neither
`NEXUS_TOKEN=` nor `KC_SCR=` occurs in it as a contiguous substring — in
particular tokens extending a secret name on the right, such as
`NEXUS_TOKEN_BACKUP=xyz`, are unaffected; but a token embedding `NAME=` after
a prefix (e.g. `MY_NEXUS_TOKEN=abc`) has its tail rewritten, because the
pattern `NAME=(\S+)` is not anchored to the start of a token. -/
theorem mask_unanchored_amended :
    (∀ s : String, containsSeq "NEXUS_TOKEN=".data s.data = false →
      containsSeq "KC_SCR=".data s.data = false → mask s = s) ∧
    mask "NEXUS_TOKEN_BACKUP=xyz" = "NEXUS_TOKEN_BACKUP=xyz" := by
  constructor
  · intro s h1 h2
    apply String.ext
    rw [mask_data]
    rw [maskSub_of_not_contains (p := "NEXUS_TOKEN".data) s.data h1]
    exact maskSub_of_not_contains (p := "KC_SCR".data) s.data h2
  · decide

/-- Witness for `mask_unanchored_amended` at a concrete input. -/
theorem mask_unanchored_amended_witness :
    mask "A=12324 B=3434 NEXUS_TOKEN_BACKUP=xyz" = "A=12324 B=3434 NEXUS_TOKEN_BACKUP=xyz" :=
  mask_unanchored_amended.1 "A=12324 B=3434 NEXUS_TOKEN_BACKUP=xyz" (by decide) (by decide)

/-! ## Claim theorems: command builder and SLURM -/

/-- C5: the allocation wrapper embeds the user command inside an outer
single-quoted `sh -c '...'`, but the quote replacement is applied TWICE (the
inline `cmd.replace("'", "'\\''")` and then `_escape_single_quotes` again), so
a command containing a single quote is not escaped exactly once: the embedded
fragment differs from the single-escaped form that preserves shell
semantics. -/
theorem buildSallocCommand_double_escape :
    (∀ params cmd : String, buildSallocCommand params cmd =
      "stdbuf -oL -eL salloc " ++ params ++ " srun --mpi=none sh -c '" ++
        escapeSingleQuotes (escapeSingleQuotes cmd) ++ "'") ∧
    escapeSingleQuotes "echo 'X'" = "echo '\\''X'\\''" ∧
    escapeSingleQuotes (escapeSingleQuotes "echo 'X'") ≠ escapeSingleQuotes "echo 'X'" := by
  refine ⟨fun params cmd => rfl, by decide, by decide⟩

/-- C9: `_process_alloc_params` satisfies the three literal cases of P4, and
never sets `cpus_per_task` from the worker count when the allocation is
exclusive. -/
theorem processAllocParams_spec :
    ((processAllocParams none {}).nodes = 1 ∧ (processAllocParams none {}).ntasks = 1 ∧
      (processAllocParams none {}).cpusPerTask = 0) ∧
    ((processAllocParams (some 5) { nodes := 10 }).ntasksPerNode = 1 ∧
      (processAllocParams (some 5) { nodes := 10 }).nodes = 10 ∧
      (processAllocParams (some 5) { nodes := 10 }).cpusPerTask = 5) ∧
    (processAllocParams (some 5) { nodes := 10, cpusPerTask := 3 }).cpusPerTask = 3 ∧
    ∀ (workerCount : Option Int) (cfg : SlurmCfg), cfg.exclusive = true →
      (processAllocParams workerCount cfg).cpusPerTask = cfg.cpusPerTask := by
  refine ⟨by decide, by decide, by decide, ?_⟩
  intro wc cfg h
  have hcond : (pyTruthyOptInt wc && !pyTruthyInt cfg.cpusPerTask && !cfg.exclusive) = false := by
    rw [h]; simp
  unfold processAllocParams
  rw [hcond]
  split_ifs <;> first | rfl | (exfalso; assumption)

/-- Witness for `processAllocParams_spec` at a concrete exclusive config. -/
theorem processAllocParams_spec_witness :
    (processAllocParams (some 5) { nodes := 10, exclusive := true }).cpusPerTask =
      ({ nodes := 10, exclusive := true } : SlurmCfg).cpusPerTask :=
  processAllocParams_spec.2.2.2 (some 5) { nodes := 10, exclusive := true } rfl

/-- C7: on every exit of the `_run_sbatch` scope after a job id was captured —
normal return or exception — `_scancel` is issued exactly when `should_cancel`
is set, and the body's outcome (including any exception) propagates
unchanged. -/
theorem runSbatchScope_cancel_spec :
    ∀ (ε : Type) (shouldCancel : Bool) (body : Except ε Unit),
      (runSbatchScope shouldCancel body).scancelIssued = shouldCancel ∧
      (runSbatchScope shouldCancel body).outcome = body := by
  intro ε sc body
  cases body <;> simp [runSbatchScope]

theorem containsSeq_append_self : ∀ (x pat : List Char), containsSeq pat (x ++ pat) = true := by
  have hsw : ∀ pat : List Char, startsWith pat pat = true := by
    intro pat
    unfold startsWith
    rw [List.take_length]
    simp
  intro x
  induction x with
  | nil =>
    intro pat
    cases pat with
    | nil => rfl
    | cons c t =>
      show (startsWith (c :: t) (c :: t) || containsSeq (c :: t) t) = true
      rw [hsw]
      simp
  | cons a x' ih =>
    intro pat
    show (startsWith pat (a :: (x' ++ pat)) || containsSeq pat (x' ++ pat)) = true
    rw [ih pat]
    simp

/-- C8 counterexample: when the channel closes with exit code 0 and no
acknowledgement line, the raised error is the bare assertion error
`"Unable to submit batch job!"`, which carries neither the captured output nor
the masked script — refuting the claim's parenthetical at this input. -/
theorem runSbatchSubmit_counterexample :
    runSbatchSubmit [] 0 "SCRIPT" = .error (.assertFailed "Unable to submit batch job!") ∧
    containsSeq "SCRIPT".data "Unable to submit batch job!".data = false :=
  ⟨rfl, by decide⟩

/-- C8 amended: a line `Submitted batch job 909516` yields job id `"909516"`;
when no line matches, the submission raises an error instead of yielding a job
id — a `RuntimeError` whose message contains the masked script when the remote
process exit code is non-zero, and a bare assertion error when the exit code
is zero. -/
theorem runSbatchSubmit_spec :
    (∀ (rc : Int) (cmd : String),
      runSbatchSubmit ["Submitted batch job 909516"] rc cmd = .ok "909516") ∧
    (∀ (lines : List String) (rc : Int) (cmd : String), findJobId lines = none →
      (rc ≠ 0 →
        runSbatchSubmit lines rc cmd =
          .error (.runtimeError (checkReturnCodeMsg rc (some cmd))) ∧
        containsSeq cmd.data (checkReturnCodeMsg rc (some cmd)).data = true) ∧
      (rc = 0 →
        runSbatchSubmit lines rc cmd = .error (.assertFailed "Unable to submit batch job!"))) := by
  constructor
  · intro rc cmd
    rfl
  · intro lines rc cmd hnone
    constructor
    · intro hrc
      constructor
      · unfold runSbatchSubmit
        rw [hnone, if_pos (by simpa using hrc)]
      · have hdata : (checkReturnCodeMsg rc (some cmd)).data =
            ("Process failed with exit code ".data ++
              ((toString rc).data ++ "\nCOMMAND:\n".data)) ++ cmd.data := by
          show (("Process failed with exit code " ++ toString rc) ++
            ("\nCOMMAND:\n" ++ cmd)).data = _
          simp only [String.data_append, List.append_assoc]
        rw [hdata]
        exact containsSeq_append_self _ _
    · intro hrc
      subst hrc
      unfold runSbatchSubmit
      rw [hnone, if_neg (by simp)]

/-- Witness for `runSbatchSubmit_spec` on concrete failing channels. -/
theorem runSbatchSubmit_spec_witness :
    runSbatchSubmit ["foo"] 1 "SCRIPT" =
      .error (.runtimeError (checkReturnCodeMsg 1 (some "SCRIPT"))) ∧
    containsSeq "SCRIPT".data (checkReturnCodeMsg 1 (some "SCRIPT")).data = true ∧
    runSbatchSubmit ["foo"] 0 "SCRIPT" = .error (.assertFailed "Unable to submit batch job!") :=
  ⟨((runSbatchSubmit_spec.2 ["foo"] 1 "SCRIPT" (by decide)).1 (by decide)).1,
   ((runSbatchSubmit_spec.2 ["foo"] 1 "SCRIPT" (by decide)).1 (by decide)).2,
   (runSbatchSubmit_spec.2 ["foo"] 0 "SCRIPT" (by decide)).2 rfl⟩

/-! ## Claim theorems: activity state machine -/

theorem metaTaskRun_prePublishCalls {ε : Type} (stored : Option Activity) (config : KgConfig)
    (tStart tEnd : Nat) (prePub : Activity → Except ε (Activity × Option String))
    (baseTask : Option String → Except ε Unit)
    (pubRes : Activity → Option String → Except ε (Activity × Option String)) :
    (metaTaskRun stored config tStart tEnd prePub baseTask pubRes).prePublishCalls =
      if (metaPhase1 stored config tStart).doPrePublish then 1 else 0 := by
  unfold metaTaskRun
  cases hif : (if (metaPhase1 stored config tStart).doPrePublish
      then prePub (metaPhase1 stored config tStart).activity
      else Except.ok ((metaPhase1 stored config tStart).activity,
        (metaPhase1 stored config tStart).activity.generated)) with
  | error e => simp [hif]
  | ok pair =>
    obtain ⟨a1, res⟩ := pair
    cases hbt : baseTask res with
    | error e => simp [hif, hbt]
    | ok u =>
      cases u
      cases hpr : pubRes a1 res with
      | error e => simp [hif, hbt, hpr]
      | ok pair2 =>
        obtain ⟨a2, res2⟩ := pair2
        simp [hif, hbt, hpr]

theorem metaTaskRun_baseTaskArg {ε : Type} (stored : Option Activity) (config : KgConfig)
    (tStart tEnd : Nat) (prePub : Activity → Except ε (Activity × Option String))
    (baseTask : Option String → Except ε Unit)
    (pubRes : Activity → Option String → Except ε (Activity × Option String))
    (a1 : Activity) (res : Option String)
    (hok : (if (metaPhase1 stored config tStart).doPrePublish
      then prePub (metaPhase1 stored config tStart).activity
      else Except.ok ((metaPhase1 stored config tStart).activity,
        (metaPhase1 stored config tStart).activity.generated)) = .ok (a1, res)) :
    (metaTaskRun stored config tStart tEnd prePub baseTask pubRes).baseTaskArg = some res := by
  unfold metaTaskRun
  cases hbt : baseTask res with
  | error e => simp [hok, hbt]
  | ok u =>
    cases u
    cases hpr : pubRes a1 res with
    | error e => simp [hok, hbt, hpr]
    | ok pair2 =>
      obtain ⟨a2, res2⟩ := pair2
      simp [hok, hbt, hpr]

/-- C1: per branch of the stored-activity lookup in `MetaTask.run`: with no
stored activity, a fresh `Running` activity is created and published and
`pre_publish_resource` runs exactly once; with a stored activity whose
`endedAtTime` is non-null, the activity is evolved in place to a fresh
`Running` attempt (refreshed config/revision, new `startedAtTime`, null
`endedAtTime`) and `pre_publish_resource` runs exactly once; with a stored
activity whose `endedAtTime` is null, `pre_publish_resource` is not invoked
and the previously generated resource reference is passed to the yielded base
task. -/
theorem metaTaskRun_resume_spec :
    ∀ (ε : Type) (config : KgConfig) (tStart tEnd : Nat)
      (prePub : Activity → Except ε (Activity × Option String))
      (baseTask : Option String → Except ε Unit)
      (pubRes : Activity → Option String → Except ε (Activity × Option String)),
    ((metaTaskRun none config tStart tEnd prePub baseTask pubRes).prePublishCalls = 1 ∧
      (metaPhase1 none config tStart).activity =
        { usedConfig := config, usedRev := config.rev, startedAtTime := some tStart,
          endedAtTime := none, status := "Running", generated := none } ∧
      (metaPhase1 none config tStart).published =
        [((metaPhase1 none config tStart).activity, false)]) ∧
    (∀ a : Activity, a.endedAtTime ≠ none →
      (metaTaskRun (some a) config tStart tEnd prePub baseTask pubRes).prePublishCalls = 1 ∧
      (metaPhase1 (some a) config tStart).activity =
        { a with usedConfig := config, usedRev := config.rev,
                 startedAtTime := some tStart, endedAtTime := none,
                 status := "Running" } ∧
      (metaPhase1 (some a) config tStart).published =
        [((metaPhase1 (some a) config tStart).activity, false)]) ∧
    (∀ a : Activity, a.endedAtTime = none →
      (metaTaskRun (some a) config tStart tEnd prePub baseTask pubRes).prePublishCalls = 0 ∧
      (metaTaskRun (some a) config tStart tEnd prePub baseTask pubRes).baseTaskArg =
        some a.generated) := by
  intro ε config tStart tEnd prePub baseTask pubRes
  refine ⟨⟨?_, rfl, rfl⟩, ?_, ?_⟩
  · rw [metaTaskRun_prePublishCalls]
    rfl
  · intro a h
    have hp1 : metaPhase1 (some a) config tStart =
        { activity :=
            { a with
              usedConfig := config
              usedRev := config.rev
              startedAtTime := some tStart
              endedAtTime := none
              status := "Running" }
          doPrePublish := true
          published :=
            [({ a with
                usedConfig := config
                usedRev := config.rev
                startedAtTime := some tStart
                endedAtTime := none
                status := "Running" }, false)] } := by
      simp only [metaPhase1]
      rw [if_pos h]
    refine ⟨?_, ?_, ?_⟩
    · rw [metaTaskRun_prePublishCalls, hp1]
      rfl
    · rw [hp1]
    · rw [hp1]
  · intro a h
    have hp1 : metaPhase1 (some a) config tStart =
        { activity := a, doPrePublish := false, published := [] } := by
      simp only [metaPhase1]
      rw [if_neg (by simp [h])]
    constructor
    · rw [metaTaskRun_prePublishCalls, hp1]
      rfl
    · exact metaTaskRun_baseTaskArg _ _ _ _ _ _ _ a a.generated (by rw [hp1]; rfl)

/-- Witness for `metaTaskRun_resume_spec` at concrete activities and hooks. -/
theorem metaTaskRun_resume_spec_witness :
    ((metaTaskRun (ε := String)
        (some { usedConfig := ⟨"cfg", 1⟩, usedRev := 1, startedAtTime := some 0,
                endedAtTime := some 3, status := "Failed", generated := some "r" })
        ⟨"cfg", 2⟩ 5 9 (fun a => .ok (a, some "p")) (fun _ => .ok ())
        (fun a r => .ok (a, r))).prePublishCalls = 1 ∧
      (metaPhase1
        (some { usedConfig := ⟨"cfg", 1⟩, usedRev := 1, startedAtTime := some 0,
                endedAtTime := some 3, status := "Failed", generated := some "r" })
        ⟨"cfg", 2⟩ 5).activity =
        { usedConfig := ⟨"cfg", 2⟩, usedRev := 2, startedAtTime := some 5,
          endedAtTime := none, status := "Running", generated := some "r" } ∧
      (metaPhase1
        (some { usedConfig := ⟨"cfg", 1⟩, usedRev := 1, startedAtTime := some 0,
                endedAtTime := some 3, status := "Failed", generated := some "r" })
        ⟨"cfg", 2⟩ 5).published =
        [((metaPhase1
            (some { usedConfig := ⟨"cfg", 1⟩, usedRev := 1, startedAtTime := some 0,
                    endedAtTime := some 3, status := "Failed", generated := some "r" })
            ⟨"cfg", 2⟩ 5).activity, false)]) ∧
    ((metaTaskRun (ε := String)
        (some { usedConfig := ⟨"cfg", 1⟩, usedRev := 1, startedAtTime := some 0,
                endedAtTime := none, status := "Running", generated := some "r" })
        ⟨"cfg", 2⟩ 5 9 (fun a => .ok (a, some "p")) (fun _ => .ok ())
        (fun a r => .ok (a, r))).prePublishCalls = 0 ∧
      (metaTaskRun (ε := String)
        (some { usedConfig := ⟨"cfg", 1⟩, usedRev := 1, startedAtTime := some 0,
                endedAtTime := none, status := "Running", generated := some "r" })
        ⟨"cfg", 2⟩ 5 9 (fun a => .ok (a, some "p")) (fun _ => .ok ())
        (fun a r => .ok (a, r))).baseTaskArg = some (some "r")) :=
  ⟨(metaTaskRun_resume_spec String ⟨"cfg", 2⟩ 5 9 (fun a => .ok (a, some "p"))
      (fun _ => .ok ()) (fun a r => .ok (a, r))).2.1
      { usedConfig := ⟨"cfg", 1⟩, usedRev := 1, startedAtTime := some 0,
        endedAtTime := some 3, status := "Failed", generated := some "r" } (by simp),
   (metaTaskRun_resume_spec String ⟨"cfg", 2⟩ 5 9 (fun a => .ok (a, some "p"))
      (fun _ => .ok ()) (fun a r => .ok (a, r))).2.2
      { usedConfig := ⟨"cfg", 1⟩, usedRev := 1, startedAtTime := some 0,
        endedAtTime := none, status := "Running", generated := some "r" } rfl⟩

/-- C2: if the delegated execution of `MetaTask.run` — `pre_publish_resource`,
the yielded base task, or `publish_resource` — raises an exception, the
activity is evolved to `status="Failed"` with `endedAtTime` set to the current
time, published (with `sync_index=True`) as the last persisted write, and the
same exception is re-raised; it is never swallowed. -/
theorem metaTaskRun_failure_spec :
    ∀ (ε : Type) (stored : Option Activity) (config : KgConfig) (tStart tEnd : Nat)
      (prePub : Activity → Except ε (Activity × Option String))
      (baseTask : Option String → Except ε Unit)
      (pubRes : Activity → Option String → Except ε (Activity × Option String)) (e : ε),
    ((if (metaPhase1 stored config tStart).doPrePublish
        then prePub (metaPhase1 stored config tStart).activity
        else Except.ok ((metaPhase1 stored config tStart).activity,
          (metaPhase1 stored config tStart).activity.generated)) = .error e
      ∨ (∃ a1 res, (if (metaPhase1 stored config tStart).doPrePublish
          then prePub (metaPhase1 stored config tStart).activity
          else Except.ok ((metaPhase1 stored config tStart).activity,
            (metaPhase1 stored config tStart).activity.generated)) = .ok (a1, res) ∧
          (baseTask res = .error e ∨
            (baseTask res = .ok () ∧ pubRes a1 res = .error e)))) →
    (metaTaskRun stored config tStart tEnd prePub baseTask pubRes).result = .error e ∧
    ∃ aF, (metaTaskRun stored config tStart tEnd prePub baseTask pubRes).published.getLast? =
        some (aF, true) ∧
      aF.status = "Failed" ∧ aF.endedAtTime = some tEnd := by
  intro ε stored config tStart tEnd prePub baseTask pubRes e hfail
  simp only [metaTaskRun]
  rcases hfail with herr | ⟨a1, res, hok, hrest⟩
  · simp only [herr]
    refine ⟨by trivial, { (metaPhase1 stored config tStart).activity with
        endedAtTime := some tEnd, status := "Failed" }, ?_, rfl, rfl⟩
    show ((metaPhase1 stored config tStart).published ++ [_]).getLast? = _
    rw [List.getLast?_concat]
  · rcases hrest with hbt | ⟨hbt, hpr⟩
    · simp only [hok, hbt]
      refine ⟨by trivial, { a1 with endedAtTime := some tEnd, status := "Failed" }, ?_, rfl, rfl⟩
      show ((metaPhase1 stored config tStart).published ++ [_]).getLast? = _
      rw [List.getLast?_concat]
    · simp only [hok, hbt, hpr]
      refine ⟨by trivial, { a1 with endedAtTime := some tEnd, status := "Failed" }, ?_, rfl, rfl⟩
      show ((metaPhase1 stored config tStart).published ++ [_]).getLast? = _
      rw [List.getLast?_concat]

/-- Witness for `metaTaskRun_failure_spec`: a failing base task at concrete
inputs. -/
theorem metaTaskRun_failure_spec_witness :
    (metaTaskRun (ε := String) none ⟨"cfg", 2⟩ 5 9 (fun a => .ok (a, some "p"))
      (fun _ => .error "boom") (fun a r => .ok (a, r))).result = .error "boom" ∧
    ∃ aF, (metaTaskRun (ε := String) none ⟨"cfg", 2⟩ 5 9 (fun a => .ok (a, some "p"))
        (fun _ => .error "boom") (fun a r => .ok (a, r))).published.getLast? =
      some (aF, true) ∧ aF.status = "Failed" ∧ aF.endedAtTime = some 9 :=
  metaTaskRun_failure_spec String none ⟨"cfg", 2⟩ 5 9 (fun a => .ok (a, some "p"))
    (fun _ => .error "boom") (fun a r => .ok (a, r)) "boom"
    (Or.inr ⟨_, some "p", rfl, Or.inl rfl⟩)

/-! ## Claim theorems: job monitor -/

/-- C6: the `update_state` flag of `_merge` is initialised once, before the
loop, and is never reset to `True`; so after the first polled index whose
state is unchanged, every later index is skipped even if its state changed.
Concretely: with last-known states `{0: RUNNING, 1: RUNNING}` and a poll
reporting `0: RUNNING` (unchanged) followed by `1: COMPLETED 0:0` (changed),
no status record is published at all — index 1's transition to `Done` is
lost; polling index 1 alone publishes its `Done` update as the claim
expects. -/
theorem merge_skips_changed_index :
    (merge 7 (fun s => s)
      (fun j => if j = 0 then some ⟨"RUNNING", "0:0", "/l0"⟩
                else if j = 1 then some ⟨"RUNNING", "0:0", "/l1"⟩ else none)
      [(0, ⟨"RUNNING", "0:0", "/l0"⟩), (1, ⟨"COMPLETED", "0:0", "/l1"⟩)]
      (some (fun _ => ⟨none, none, none, none⟩))).publishes = [] ∧
    (merge 7 (fun s => s)
      (fun j => if j = 0 then some ⟨"RUNNING", "0:0", "/l0"⟩
                else if j = 1 then some ⟨"RUNNING", "0:0", "/l1"⟩ else none)
      [(1, ⟨"COMPLETED", "0:0", "/l1"⟩)]
      (some (fun _ => ⟨none, none, none, none⟩))).publishes =
      [(1, ⟨some "Done", none, some 7, some "/l1"⟩)] :=
  ⟨rfl, rfl⟩

/-- C10: `_map_slurm_state` is partial — every job state other than exactly
`RUNNING`, `PENDING` or `COMPLETED` maps to `None`; `None` is never a final
state; and when `_merge` updates a tracked record for an index in such a
state, the published entity has a null status, is not classified final, and
keeps its previous start and end timestamps (no end timestamp is ever
stamped). -/
theorem mapSlurmState_partial_spec :
    (∀ state exitCode : String, state ≠ "RUNNING" → state ≠ "PENDING" →
      state ≠ "COMPLETED" → mapSlurmState state exitCode = none) ∧
    isFinalState none = false ∧
    (∀ (now : Nat) (oodUrl : String → String) (st : MergeState) (idx : Nat)
        (p : SlurmProps) (f : Nat → SimEntity),
      st.indexToSim = some f → st.updateState = true →
      (∀ old, st.simProps idx = some old → p.jobState ≠ old.jobState) →
      p.jobState ≠ "RUNNING" → p.jobState ≠ "PENDING" → p.jobState ≠ "COMPLETED" →
      ∃ sim, (mergeOne now oodUrl st (idx, p)).publishes = st.publishes ++ [(idx, sim)] ∧
        sim.status = none ∧ isFinalState sim.status = false ∧
        sim.startedAtTime = (f idx).startedAtTime ∧
        sim.endedAtTime = (f idx).endedAtTime) := by
  refine ⟨?_, rfl, ?_⟩
  · intro s e h1 h2 h3
    unfold mapSlurmState
    rw [if_neg h1, if_neg h2, if_neg h3]
  · intro now oodUrl st idx p f hf hu hold h1 h2 h3
    have hmap : mapSlurmState p.jobState p.exitCode = none := by
      unfold mapSlurmState
      rw [if_neg h1, if_neg h2, if_neg h3]
    refine ⟨⟨none, (f idx).startedAtTime, (f idx).endedAtTime, some (oodUrl p.stdOut)⟩,
      ?_, rfl, rfl, rfl, rfl⟩
    simp only [mergeOne, hf, hmap]
    cases hsp : st.simProps idx with
    | none =>
      simp [hsp, hu, isFinalState]
    | some old =>
      simp [hsp, hold old hsp, hu, isFinalState]

/-- Witness for `mapSlurmState_partial_spec` at a concrete `FAILED` poll. -/
theorem mapSlurmState_partial_spec_witness :
    ∃ sim, (mergeOne 5 (fun s => s)
      { simProps := fun _ => none,
        indexToSim := some (fun _ => ⟨none, none, none, none⟩),
        updateState := true, publishes := [] }
      (3, ⟨"FAILED", "1:0", "/x"⟩)).publishes = [] ++ [(3, sim)] ∧
      sim.status = none ∧ isFinalState sim.status = false ∧
      sim.startedAtTime = none ∧ sim.endedAtTime = none :=
  mapSlurmState_partial_spec.2.2 5 (fun s => s)
    { simProps := fun _ => none,
      indexToSim := some (fun _ => ⟨none, none, none, none⟩),
      updateState := true, publishes := [] }
    3 ⟨"FAILED", "1:0", "/x"⟩ (fun _ => ⟨none, none, none, none⟩) rfl rfl
    (fun old h => absurd h (by simp)) (by decide) (by decide) (by decide)
